import Mathlib

/-!
Shallow embedding of the membership-club Telegram bot
(`src/server.js` and the three program variants concatenated in
`src/unnamed/part_000`).

Modelling conventions:
- JavaScript strings that carry member codes or message text are modeled as
  lists of UTF-16 code units (`JsStr := List Nat`).
- PostgreSQL tables are modeled as Lean lists of row structures; SQL reads
  and writes are translated statement by statement.
- The cryptographic random source is modeled as an arbitrary stream
  `f : Nat → Nat` together with a position: the call `crypto.randomInt n`
  at stream position `pos` yields `f pos % n` (faithful to the contract
  that `crypto.randomInt n` returns a value in `0 .. n-1`).
-/

namespace MembershipBot

/-- JavaScript strings as lists of UTF-16 code units. -/
abbrev JsStr := List Nat

/-- Embeds `randomLetterAZ()`: `String.fromCharCode(65 + crypto.randomInt(26))`,
one code unit in `65 .. 90` (`A` .. `Z`). -/
def randomLetterAZ (r : Nat) : Nat := 65 + r % 26

/-- One digit code unit produced by appending `crypto.randomInt(10)` to a
string: `48 .. 57` (`0` .. `9`). -/
def randomDigit (r : Nat) : Nat := 48 + r % 10

/-- Embeds `randomDigits(n)`: `n` successive draws of `crypto.randomInt(10)`,
concatenated as digit characters, starting at stream position `start`. -/
def randomDigits (f : Nat → Nat) (start n : Nat) : JsStr :=
  (List.range n).map (fun i => randomDigit (f (start + i)))

/-- Embeds `randomCodeAZ6()` = `randomLetterAZ() + randomDigits(6)`;
consumes 7 random draws starting at position `start`. -/
def randomCodeAZ6 (f : Nat → Nat) (start : Nat) : JsStr :=
  randomLetterAZ (f start) :: randomDigits f (start + 1) 6

/-- Embeds `CODE_REGEX = /^[A-Z][0-9]\x7b6\x7d$/` as a decidable test on code units:
one code unit in `65 .. 90` followed by exactly six code units in `48 .. 57`. -/
def codeRegexTest : JsStr → Bool
  | [] => false
  | c :: rest =>
    (decide (65 ≤ c) && decide (c ≤ 90)) && rest.length == 6 &&
      rest.all (fun d => decide (48 ≤ d) && decide (d ≤ 57))

/-- The bounded retry loop shared by all three `generateUniqueCode` variants:
up to `n` attempts, each drawing a candidate `randomCodeAZ6()` (7 random
values) and querying `SELECT 1 FROM members WHERE my_code = $1` against the
existing codes; the first candidate absent from the table is returned,
`none` when every attempt collided. -/
def generateUniqueCodeLoop (codes : List JsStr) (f : Nat → Nat) : Nat → Nat → Option JsStr
  | 0, _ => none
  | n + 1, pos =>
    let c := randomCodeAZ6 f pos
    if codes.contains c then generateUniqueCodeLoop codes f n (pos + 7) else some c

/-- Embeds `generateUniqueCode()` of `src/server.js`: 6 checked attempts, then the
unchecked fallback `randomLetterAZ() + randomDigits(7).slice(1)`. -/
def generateUniqueCodeServer (codes : List JsStr) (f : Nat → Nat) : JsStr :=
  match generateUniqueCodeLoop codes f 6 0 with
  | some c => c
  | none => randomLetterAZ (f 42) :: (randomDigits f 43 7).drop 1

/-- Embeds `generateUniqueCode()` of the first `part_000` variant: 6 checked attempts,
then the unchecked fallback `randomCodeAZ6()`. -/
def generateUniqueCodeV1 (codes : List JsStr) (f : Nat → Nat) : JsStr :=
  match generateUniqueCodeLoop codes f 6 0 with
  | some c => c
  | none => randomCodeAZ6 f 42

/-- Embeds `generateUniqueCode()` of the second `part_000` variant: 6 checked
attempts, then the unchecked fallback `randomLetterAZ() + randomDigits(6)`. -/
def generateUniqueCodeV2 (codes : List JsStr) (f : Nat → Nat) : JsStr :=
  match generateUniqueCodeLoop codes f 6 0 with
  | some c => c
  | none => randomLetterAZ (f 42) :: randomDigits f 43 6

theorem randomDigits_mem (f : Nat → Nat) (s n d : Nat)
    (h : d ∈ randomDigits f s n) : 48 ≤ d ∧ d ≤ 57 := by
  simp only [randomDigits, List.mem_map, List.mem_range] at h
  obtain ⟨i, _, rfl⟩ := h
  unfold randomDigit
  omega

theorem codeRegexTest_of (c : Nat) (rest : JsStr) (h1 : 65 ≤ c) (h2 : c ≤ 90)
    (h3 : rest.length = 6) (h4 : ∀ d ∈ rest, 48 ≤ d ∧ d ≤ 57) :
    codeRegexTest (c :: rest) = true := by
  simp only [codeRegexTest, Bool.and_eq_true, decide_eq_true_eq, beq_iff_eq,
    List.all_eq_true]
  exact ⟨⟨⟨h1, h2⟩, h3⟩, fun d hd => h4 d hd⟩

theorem randomLetterAZ_bounds (r : Nat) : 65 ≤ randomLetterAZ r ∧ randomLetterAZ r ≤ 90 := by
  unfold randomLetterAZ
  omega

theorem randomCodeAZ6_format (f : Nat → Nat) (s : Nat) :
    codeRegexTest (randomCodeAZ6 f s) = true := by
  refine codeRegexTest_of _ _ (randomLetterAZ_bounds (f s)).1 (randomLetterAZ_bounds (f s)).2
    (by simp [randomDigits]) (randomDigits_mem f (s + 1) 6)

theorem generateUniqueCodeLoop_format (codes : List JsStr) (f : Nat → Nat)
    (n pos : Nat) (c : JsStr) (h : generateUniqueCodeLoop codes f n pos = some c) :
    codeRegexTest c = true := by
  induction n generalizing pos with
  | zero => simp [generateUniqueCodeLoop] at h
  | succ n ih =>
    simp only [generateUniqueCodeLoop] at h
    split at h
    · exact ih _ h
    · cases h
      exact randomCodeAZ6_format f pos

/-- Claim C7: every string returned by `generateUniqueCode`, on every path —
the retry loop and each variant's fallback after 6 collisions — matches the
required pattern (one uppercase letter A-Z followed by exactly six digits). -/
theorem generated_codes_match_format (codes : List JsStr) (f : Nat → Nat) :
    codeRegexTest (generateUniqueCodeServer codes f) = true ∧
    codeRegexTest (generateUniqueCodeV1 codes f) = true ∧
    codeRegexTest (generateUniqueCodeV2 codes f) = true := by
  unfold generateUniqueCodeServer generateUniqueCodeV1 generateUniqueCodeV2
  rcases h : generateUniqueCodeLoop codes f 6 0 with _ | c
  · refine ⟨?_, randomCodeAZ6_format f 42, ?_⟩
    · refine codeRegexTest_of _ _ (randomLetterAZ_bounds (f 42)).1
        (randomLetterAZ_bounds (f 42)).2 (by simp [randomDigits]) ?_
      intro d hd
      exact randomDigits_mem f 43 7 d (List.mem_of_mem_drop hd)
    · exact codeRegexTest_of _ _ (randomLetterAZ_bounds (f 42)).1
        (randomLetterAZ_bounds (f 42)).2 (by simp [randomDigits]) (randomDigits_mem f 43 6)
  · have hc := generateUniqueCodeLoop_format codes f 6 0 c h
    exact ⟨hc, hc, hc⟩

/-- Claim C3 (counterexample): with the members table already containing the
code "A000000" and a random source that always yields 0, every checked draw
collides, and the fallback path returns "A000000" — a code that does exist in
the members table. The claim that the returned code never exists in the table
is therefore false on the fallback path. -/
theorem generateUniqueCode_collision_on_fallback :
    generateUniqueCodeV1 [[65, 48, 48, 48, 48, 48, 48]] (fun _ => 0)
      = [65, 48, 48, 48, 48, 48, 48] ∧
    ([[65, 48, 48, 48, 48, 48, 48]] : List JsStr).contains
      [65, 48, 48, 48, 48, 48, 48] = true ∧
    generateUniqueCodeServer [[65, 48, 48, 48, 48, 48, 48]] (fun _ => 0)
      = [65, 48, 48, 48, 48, 48, 48] := by
  refine ⟨by decide, by decide, by decide⟩

theorem generateUniqueCodeLoop_fresh (codes : List JsStr) (f : Nat → Nat) :
    ∀ n pos, (∃ k, k < n ∧ codes.contains (randomCodeAZ6 f (pos + 7 * k)) = false) →
      ∃ c, generateUniqueCodeLoop codes f n pos = some c ∧ codes.contains c = false := by
  intro n
  induction n with
  | zero =>
    rintro pos ⟨k, hk, _⟩
    omega
  | succ n ih =>
    rintro pos ⟨k, hk, hfresh⟩
    by_cases hc : codes.contains (randomCodeAZ6 f pos) = true
    · have hk0 : k ≠ 0 := by
        rintro rfl
        simp only [Nat.mul_zero, Nat.add_zero] at hfresh
        rw [hfresh] at hc
        exact Bool.false_ne_true hc
      obtain ⟨k', rfl⟩ := Nat.exists_eq_succ_of_ne_zero hk0
      obtain ⟨c, hloop, hcfresh⟩ := ih (pos + 7)
        ⟨k', by omega, by rw [show pos + 7 + 7 * k' = pos + 7 * (k' + 1) by ring]; exact hfresh⟩
      refine ⟨c, ?_, hcfresh⟩
      simp only [generateUniqueCodeLoop, hc, if_true]
      exact hloop
    · refine ⟨randomCodeAZ6 f pos, ?_, by simpa using hc⟩
      simp only [generateUniqueCodeLoop]
      rw [if_neg (by simpa using hc)]

/-- Claim C3 (amended): whenever at least one of the six checked candidates is
absent from the members table, `generateUniqueCode` (all three variants)
returns a code not currently in the table; only the unchecked fallback taken
after all six attempts collide can return an already-existing code. -/
theorem generateUniqueCode_fresh_when_attempt_misses (codes : List JsStr) (f : Nat → Nat)
    (h : ∃ k, k < 6 ∧ codes.contains (randomCodeAZ6 f (7 * k)) = false) :
    codes.contains (generateUniqueCodeServer codes f) = false ∧
    codes.contains (generateUniqueCodeV1 codes f) = false ∧
    codes.contains (generateUniqueCodeV2 codes f) = false := by
  obtain ⟨c, hc, hfresh⟩ := generateUniqueCodeLoop_fresh codes f 6 0 (by simpa using h)
  unfold generateUniqueCodeServer generateUniqueCodeV1 generateUniqueCodeV2
  rw [hc]
  exact ⟨hfresh, hfresh, hfresh⟩

/-- Witness for the amended C3 theorem: with an empty members table the first
candidate is fresh, and the returned code is indeed absent from the table. -/
theorem generateUniqueCode_fresh_witness :
    (∃ k, k < 6 ∧ ([] : List JsStr).contains (randomCodeAZ6 (fun _ => 0) (7 * k)) = false) ∧
    ([] : List JsStr).contains (generateUniqueCodeServer [] (fun _ => 0)) = false :=
  ⟨⟨0, by decide, by decide⟩,
    (generateUniqueCode_fresh_when_attempt_misses [] (fun _ => 0) ⟨0, by decide, by decide⟩).1⟩

/-! ## Screening engine data model (first `part_000` variant)

Rows of the four tables created by `initDb`, and the transient in-process
`awaitingText` map. The `screening_answers` table declares a `BIGSERIAL`
primary key and two foreign keys but no unique constraint on
`(session_id, question_id)`. -/

/-- Values of the `q_type` column: `CHECK (q_type IN ('mcq','text'))`. -/
inductive QType
  | mcq
  | txt
deriving DecidableEq, Repr

/-- A row of `screening_questions`. -/
structure Question where
  id : Nat
  q_text : String
  q_type : QType
  options : List String
  correct_index : Option Int
deriving DecidableEq, Repr

/-- A row of `members` (first variant: with `screening_status`). -/
structure MemberRow where
  tg_id : Nat
  my_code : Option JsStr
  screening_status : String
deriving DecidableEq, Repr

/-- A row of `screening_sessions`; `finished` models `finished_at` being set. -/
structure SessionRow where
  id : Nat
  tg_id : Nat
  finished : Bool
  score : Int
  result : Option String
deriving DecidableEq, Repr

/-- A row of `screening_answers`. The table has no unique constraint on
`(session_id, question_id)`: its only unique index is the `BIGSERIAL`
primary key. -/
structure AnswerRow where
  session_id : Nat
  question_id : Nat
  answer_text : Option JsStr
  chosen_index : Option Int
deriving DecidableEq, Repr

/-- The database plus the in-process `awaitingText` map
(`tg_id ↦ (sessionId, questionId)`); `nextSid` models the `BIGSERIAL`
sequence behind `screening_sessions.id`. -/
structure ScreeningState where
  members : List MemberRow
  questions : List Question
  sessions : List SessionRow
  answers : List AnswerRow
  awaitingText : List (Nat × Nat × Nat)
  nextSid : Nat
deriving DecidableEq, Repr

/-- The observable reply sent back to the user by each handler. -/
inductive Reply
  | registerFirst
  | alreadyPassed
  | alreadyFailed
  | askForCode
  | codeMismatch
  | noQuestions
  | mcqPrompt (questionId : Nat) (numOptions : Nat)
  | textPrompt (questionId : Nat)
  | resultMsg (score : Int) (maxScore : Nat) (grade : String)
  | ignored
deriving DecidableEq, Repr

/-- Embeds `SUM(chosen_index + 1)` with SQL `NULL` semantics: rows whose
`chosen_index` is `NULL` are skipped by `SUM`, and `COALESCE(..., 0)`
yields 0 when nothing is summed. -/
def sumChosen (l : List AnswerRow) : Int :=
  l.foldl (fun acc a => match a.chosen_index with | some i => acc + (i + 1) | none => acc) 0

/-- Embeds `SELECT COALESCE(SUM(chosen_index+1),0)::int FROM screening_answers
WHERE session_id = $1`. -/
def sessionScore (answers : List AnswerRow) (sid : Nat) : Int :=
  sumChosen (answers.filter (fun a => a.session_id == sid))

/-- The grade ladder of `askQuestion`: `score>=40 → A`, `>=32 → B`,
`>=25 → C`, else `D`. -/
def gradeOf (score : Int) : String :=
  if score ≥ 40 then "A" else if score ≥ 32 then "B" else if score ≥ 25 then "C" else "D"

/-- Insertion step for `ORDER BY id ASC`. -/
def insertById (q : Question) : List Question → List Question
  | [] => [q]
  | p :: ps => if q.id ≤ p.id then q :: p :: ps else p :: insertById q ps

/-- Embeds `SELECT * FROM screening_questions ORDER BY id ASC` as an insertion sort
of the stored rows by ascending `id`. -/
def sortById : List Question → List Question
  | [] => []
  | q :: qs => insertById q (sortById qs)

/-- Embeds `SELECT question_id FROM screening_answers WHERE session_id = $1`,
the id set `ansSet` of `nextQuestion`. -/
def answeredIds (answers : List AnswerRow) (sid : Nat) : List Nat :=
  (answers.filter (fun a => a.session_id == sid)).map (fun a => a.question_id)

/-- Embeds `nextQuestion(sessionId)`: `qs.find(q => !ansSet.has(q.id)) || null` over
the catalog ordered by ascending id. -/
def nextQuestion (st : ScreeningState) (sid : Nat) : Option Question :=
  (sortById st.questions).find? (fun q => !((answeredIds st.answers sid).contains q.id))

/-- Embeds `awaitingText.set(key, value)` on the transient map. -/
def mapSet (m : List (Nat × Nat × Nat)) (k : Nat) (v : Nat × Nat) : List (Nat × Nat × Nat) :=
  if m.any (fun e => e.1 == k) then m.map (fun e => if e.1 == k then (k, v.1, v.2) else e)
  else m ++ [(k, v.1, v.2)]

/-- Embeds `awaitingText.get(key)` on the transient map. -/
def mapGet (m : List (Nat × Nat × Nat)) (k : Nat) : Option (Nat × Nat) :=
  (m.find? (fun e => e.1 == k)).map (fun e => (e.2.1, e.2.2))

/-- Embeds `awaitingText.delete(key)` on the transient map. -/
def mapDelete (m : List (Nat × Nat × Nat)) (k : Nat) : List (Nat × Nat × Nat) :=
  m.filter (fun e => !(e.1 == k))

/-- Embeds `askQuestion(ctx, sessionId, q)`. With `q = null` it finishes the
session: computes the score, derives the grade, writes
`finished_at/score/result` to the session row, mirrors the grade onto
`members.screening_status`, and replies with `score/(totalQ*5)` and the
grade. With an `mcq` question it sends one inline button per option; with a
`text` question it records the member in `awaitingText` and prompts. -/
def askQuestion (st : ScreeningState) (tgId sid : Nat) : Option Question → ScreeningState × Reply
  | none =>
    let score := sessionScore st.answers sid
    let grade := gradeOf score
    let totalQ := st.questions.length
    ({ st with
        sessions := st.sessions.map (fun s =>
          if s.id == sid then { s with finished := true, score := score, result := some grade } else s),
        members := st.members.map (fun m =>
          if m.tg_id == tgId then { m with screening_status := grade } else m) },
      Reply.resultMsg score (totalQ * 5) grade)
  | some q =>
    match q.q_type with
    | QType.mcq => (st, Reply.mcqPrompt q.id q.options.length)
    | QType.txt =>
      ({ st with awaitingText := mapSet st.awaitingText tgId (sid, q.id) }, Reply.textPrompt q.id)

/-- Embeds `getOrCreateSession(tgId)`: return the existing session id for the member
or insert a fresh row (`UNIQUE (tg_id)` makes at most one row per member). -/
def getOrCreateSession (st : ScreeningState) (tgId : Nat) : Nat × ScreeningState :=
  match st.sessions.find? (fun s => s.tg_id == tgId) with
  | some s => (s.id, st)
  | none =>
    (st.nextSid,
      { st with
          sessions := st.sessions ++
            [{ id := st.nextSid, tg_id := tgId, finished := false, score := 0, result := none }],
          nextSid := st.nextSid + 1 })

/-- Embeds `startScreeningWithCode(ctx)`: reject unregistered users, reject statuses
`passed` and `failed` with their terminal messages, otherwise prompt the
member for their personal code. No branch writes to storage. -/
def startScreeningWithCode (st : ScreeningState) (tgId : Nat) : ScreeningState × Reply :=
  match st.members.find? (fun m => m.tg_id == tgId) with
  | none => (st, Reply.registerFirst)
  | some m =>
    if m.screening_status == "passed" then (st, Reply.alreadyPassed)
    else if m.screening_status == "failed" then (st, Reply.alreadyFailed)
    else (st, Reply.askForCode)

/-- The `INSERT INTO screening_answers(session_id,question_id,chosen_index,is_correct)
VALUES($1,$2,$3,NULL) ON CONFLICT DO NOTHING` of the `callback_query` handler.
Because the table declares no unique constraint on `(session_id, question_id)`
(its only unique index is the auto-assigned `BIGSERIAL` primary key, which
never conflicts), `ON CONFLICT DO NOTHING` has no applicable arbiter and the
statement always inserts a new row. -/
def insertAnswerMcq (st : ScreeningState) (sid qid : Nat) (chosen : Int) : ScreeningState :=
  { st with answers := st.answers ++
      [{ session_id := sid, question_id := qid, answer_text := none, chosen_index := some chosen }] }

/-- The `callback_query` handler for data `ans:<qid>:<chosen>`: resolve the
session, run the duplicate-tolerant insert, then advance with
`askQuestion(..., nextQuestion(sessionId))`. -/
def handleCallback (st : ScreeningState) (tgId qid : Nat) (chosen : Int) : ScreeningState × Reply :=
  let p := getOrCreateSession st tgId
  let st2 := insertAnswerMcq p.2 p.1 qid chosen
  askQuestion st2 tgId p.1 (nextQuestion st2 p.1)

/-- The `bot.on('text')` handler: if the member is awaiting a free-text
answer, clear the marker, insert the answer with
`ctx.message.text.slice(0, 2000)` as `answer_text` (and `chosen_index` NULL),
then advance; otherwise ignore the message. -/
def handleText (st : ScreeningState) (tgId : Nat) (msg : JsStr) : ScreeningState × Reply :=
  match mapGet st.awaitingText tgId with
  | none => (st, Reply.ignored)
  | some (sid, qid) =>
    let st1 := { st with awaitingText := mapDelete st.awaitingText tgId }
    let st2 := { st1 with answers := st1.answers ++
        [{ session_id := sid, question_id := qid, answer_text := some (msg.take 2000),
           chosen_index := none }] }
    askQuestion st2 tgId sid (nextQuestion st2 sid)

/-- Embeds `verifyCodeAndBegin(ctx, codeText)`: reject unregistered users and
mismatched codes, reject an empty catalog, otherwise resolve the session and
ask the next question. -/
def verifyCodeAndBegin (st : ScreeningState) (tgId : Nat) (codeText : JsStr) : ScreeningState × Reply :=
  match st.members.find? (fun m => m.tg_id == tgId) with
  | none => (st, Reply.registerFirst)
  | some m =>
    if m.my_code != some codeText then (st, Reply.codeMismatch)
    else if st.questions.length == 0 then (st, Reply.noQuestions)
    else
      let p := getOrCreateSession st tgId
      askQuestion p.2 tgId p.1 (nextQuestion p.2 p.1)

/-- The set of codes currently stored in `members.my_code` (the column the
uniqueness query of `generateUniqueCode` consults). -/
def codesOf (st : ScreeningState) : List JsStr :=
  st.members.filterMap (fun m => m.my_code)

/-- The repair path of `ensureCodeFormat`: allocate a fresh unique code and
persist it with `UPDATE members SET my_code=$1 WHERE tg_id=$2`. -/
def allocAndWrite (st : ScreeningState) (f : Nat → Nat) (tgId : Nat) : Option JsStr × ScreeningState :=
  let newCode := generateUniqueCodeV1 (codesOf st) f
  (some newCode,
    { st with members := st.members.map (fun m =>
        if m.tg_id == tgId then { m with my_code := some newCode } else m) })

/-- Embeds `ensureCodeFormat(tgId)`: `null` for an unknown member; the stored code
unchanged (no write) when it is non-null and matches `CODE_REGEX`; otherwise
a freshly allocated code, persisted. -/
def ensureCodeFormat (st : ScreeningState) (f : Nat → Nat) (tgId : Nat) : Option JsStr × ScreeningState :=
  match st.members.find? (fun m => m.tg_id == tgId) with
  | none => (none, st)
  | some m =>
    match m.my_code with
    | some c => if codeRegexTest c then (some c, st) else allocAndWrite st f tgId
    | none => allocAndWrite st f tgId

/-! ## Helper lemmas about the screening engine -/

theorem askQuestion_answers (st : ScreeningState) (tgId sid : Nat) (q? : Option Question) :
    (askQuestion st tgId sid q?).1.answers = st.answers := by
  cases q? with
  | none => rfl
  | some q => cases h : q.q_type <;> simp [askQuestion, h]

theorem askQuestion_finish_sessions (st : ScreeningState) (tgId sid : Nat) :
    ∀ s ∈ (askQuestion st tgId sid none).1.sessions, s.id = sid →
      s.finished = true ∧ s.score = sessionScore st.answers sid ∧
      s.result = some (gradeOf (sessionScore st.answers sid)) := by
  intro s hs hsid
  simp only [askQuestion, List.mem_map] at hs
  obtain ⟨s0, hs0, rfl⟩ := hs
  by_cases h0 : s0.id = sid
  · simp [h0]
  · simp only [beq_iff_eq, h0, if_false] at hsid ⊢

theorem askQuestion_finish_members (st : ScreeningState) (tgId sid : Nat) :
    ∀ m ∈ (askQuestion st tgId sid none).1.members, m.tg_id = tgId →
      m.screening_status = gradeOf (sessionScore st.answers sid) := by
  intro m hm htg
  simp only [askQuestion, List.mem_map] at hm
  obtain ⟨m0, hm0, rfl⟩ := hm
  by_cases h0 : m0.tg_id = tgId
  · simp [h0]
  · simp only [beq_iff_eq, h0, if_false] at htg ⊢

/-! ## Claim C9 -/

/-- Claim C9: for a registered member whose screening status is already
`passed` or `failed`, start-screening replies with the corresponding terminal
message and changes nothing (no session is created and no question is
prompted); for an unregistered user it replies asking to register first. -/
theorem startScreening_terminal_gate_replies (st : ScreeningState) (tgId : Nat) :
    (st.members.find? (fun x => x.tg_id == tgId) = none →
      startScreeningWithCode st tgId = (st, Reply.registerFirst)) ∧
    (∀ m, st.members.find? (fun x => x.tg_id == tgId) = some m →
      (m.screening_status = "passed" →
        startScreeningWithCode st tgId = (st, Reply.alreadyPassed)) ∧
      (m.screening_status = "failed" →
        startScreeningWithCode st tgId = (st, Reply.alreadyFailed))) := by
  constructor
  · intro h
    unfold startScreeningWithCode
    rw [h]
  · intro m hm
    constructor
    · intro hp
      unfold startScreeningWithCode
      rw [hm]
      simp [hp]
    · intro hf
      unfold startScreeningWithCode
      rw [hm]
      simp [hf]

/-- Witness for C9 at a concrete state: a member with status `passed` gets
the terminal reply and an unchanged state. -/
theorem startScreening_terminal_gate_witness :
    startScreeningWithCode ⟨[⟨10, none, "passed"⟩], [], [], [], [], 1⟩ 10
      = (⟨[⟨10, none, "passed"⟩], [], [], [], [], 1⟩, Reply.alreadyPassed) :=
  ((startScreening_terminal_gate_replies ⟨[⟨10, none, "passed"⟩], [], [], [], [], 1⟩ 10).2
    ⟨10, none, "passed"⟩ (by decide)).1 rfl

/-! ## Claim C6 -/

/-- Claim C6: for a member whose stored code already matches the required
pattern, `ensureCodeFormat` returns that code unchanged and performs no
write, and a second call (with any random source) returns the same value. -/
theorem ensureCodeFormat_idempotent (st : ScreeningState) (f g : Nat → Nat) (tgId : Nat)
    (m : MemberRow) (c : JsStr)
    (hfind : st.members.find? (fun x => x.tg_id == tgId) = some m)
    (hcode : m.my_code = some c) (hfmt : codeRegexTest c = true) :
    ensureCodeFormat st f tgId = (some c, st) ∧
    ensureCodeFormat (ensureCodeFormat st f tgId).2 g tgId = (some c, st) := by
  have key : ∀ h : Nat → Nat, ensureCodeFormat st h tgId = (some c, st) := by
    intro h
    simp [ensureCodeFormat, hfind, hcode, hfmt]
  refine ⟨key f, ?_⟩
  rw [key f]
  exact key g

/-- Witness for C6 at a concrete member whose stored code is `A123456`. -/
theorem ensureCodeFormat_idempotent_witness :
    ensureCodeFormat ⟨[⟨10, some [65, 49, 50, 51, 52, 53, 54], "pending"⟩], [], [], [], [], 1⟩
        (fun _ => 0) 10
      = (some [65, 49, 50, 51, 52, 53, 54],
          ⟨[⟨10, some [65, 49, 50, 51, 52, 53, 54], "pending"⟩], [], [], [], [], 1⟩) :=
  (ensureCodeFormat_idempotent
    ⟨[⟨10, some [65, 49, 50, 51, 52, 53, 54], "pending"⟩], [], [], [], [], 1⟩
    (fun _ => 0) (fun _ => 0) 10 ⟨10, some [65, 49, 50, 51, 52, 53, 54], "pending"⟩
    [65, 49, 50, 51, 52, 53, 54] (by decide) rfl (by decide)).1

/-! ## Claim C10 -/

/-- Claim C10: an awaited free-text answer is stored with `answer_text` equal
to `slice(0, 2000)` of the message: the message itself when it has at most
2000 code units, and its 2000-unit prefix otherwise. -/
theorem freeText_answer_truncated (st : ScreeningState) (tgId : Nat) (msg : JsStr)
    (sid qid : Nat) (h : mapGet st.awaitingText tgId = some (sid, qid)) :
    (handleText st tgId msg).1.answers
      = st.answers ++ [{ session_id := sid, question_id := qid,
                         answer_text := some (msg.take 2000), chosen_index := none }] ∧
    (msg.length ≤ 2000 → msg.take 2000 = msg) ∧
    (msg.take 2000).length = min 2000 msg.length ∧
    msg.take 2000 ++ msg.drop 2000 = msg := by
  refine ⟨?_, fun hlen => List.take_of_length_le hlen, List.length_take 2000 msg,
    List.take_append_drop 2000 msg⟩
  simp only [handleText, h, askQuestion_answers]

/-- Witness for C10 at a concrete awaited member and a two-character message. -/
theorem freeText_answer_truncated_witness :
    (handleText ⟨[⟨10, none, "pending"⟩], [], [⟨1, 10, false, 0, none⟩], [], [(10, 1, 2)], 2⟩
        10 [72, 73]).1.answers
      = [{ session_id := 1, question_id := 2,
             answer_text := some (([72, 73] : JsStr).take 2000), chosen_index := none }] :=
  (freeText_answer_truncated
    ⟨[⟨10, none, "pending"⟩], [], [⟨1, 10, false, 0, none⟩], [], [(10, 1, 2)], 2⟩
    10 [72, 73] 1 2 (by decide)).1

/-! ## Claim C1 -/

theorem sumChosen_eq (l : List AnswerRow) :
    sumChosen l = ((l.filterMap (fun a => a.chosen_index)).map (fun i => i + 1)).sum := by
  have key : ∀ (t : List AnswerRow) (init : Int),
      t.foldl (fun acc a =>
          match a.chosen_index with | some i => acc + (i + 1) | none => acc) init
        = init + ((t.filterMap (fun a => a.chosen_index)).map (fun i => i + 1)).sum := by
    intro t
    induction t with
    | nil => intro init; simp
    | cons a tl ih =>
      intro init
      cases h : a.chosen_index with
      | none => simp [List.foldl_cons, h, ih]
      | some i =>
        simp only [List.foldl_cons, h, ih, List.filterMap_cons, List.map_cons, List.sum_cons]
        ring
  simpa using key l 0

theorem sessionScore_eq_mc_sum (answers : List AnswerRow) (sid : Nat) :
    sessionScore answers sid
      = (((answers.filter (fun a => a.session_id == sid)).filterMap
            (fun a => a.chosen_index)).map (fun i => i + 1)).sum := by
  unfold sessionScore
  exact sumChosen_eq _

theorem sessionScore_skips_freeText (answers : List AnswerRow) (sid : Nat) (row : AnswerRow)
    (h : row.chosen_index = none) :
    sessionScore (answers ++ [row]) sid = sessionScore answers sid := by
  rw [sessionScore_eq_mc_sum, sessionScore_eq_mc_sum]
  rw [List.filter_append]
  by_cases hs : (row.session_id == sid) = true
  · simp [hs, h]
  · simp [List.filter_cons, hs]

theorem gradeOf_thresholds (S : Int) :
    (40 ≤ S → gradeOf S = "A") ∧ (32 ≤ S → S < 40 → gradeOf S = "B") ∧
    (25 ≤ S → S < 32 → gradeOf S = "C") ∧ (S < 25 → gradeOf S = "D") := by
  unfold gradeOf
  refine ⟨?_, ?_, ?_, ?_⟩ <;> intros <;> split_ifs <;> first | rfl | omega

/-- The conjunction claim C1 asserts of the finish path: the reply carries the
score, the displayed maximum `totalQuestions * 5` and the grade; the score is
the sum over the recorded multiple-choice answers of `chosen index + 1`;
free-text rows (whose `chosen_index` is NULL) contribute nothing; the session
row is finished with that score and grade; and the grade thresholds are
40/32/25 with the sample scores 44, 35, 27, 10 mapped to A, B, C, D. -/
def FinishScoringProp (st : ScreeningState) (tgId sid : Nat) : Prop :=
  (askQuestion st tgId sid (nextQuestion st sid)).2
      = Reply.resultMsg (sessionScore st.answers sid) (st.questions.length * 5)
          (gradeOf (sessionScore st.answers sid)) ∧
  sessionScore st.answers sid
      = (((st.answers.filter (fun a => a.session_id == sid)).filterMap
            (fun a => a.chosen_index)).map (fun i => i + 1)).sum ∧
  (∀ row : AnswerRow, row.chosen_index = none →
      sessionScore (st.answers ++ [row]) sid = sessionScore st.answers sid) ∧
  (∀ s ∈ (askQuestion st tgId sid (nextQuestion st sid)).1.sessions, s.id = sid →
      s.finished = true ∧ s.score = sessionScore st.answers sid ∧
      s.result = some (gradeOf (sessionScore st.answers sid))) ∧
  (∀ S : Int, (40 ≤ S → gradeOf S = "A") ∧ (32 ≤ S → S < 40 → gradeOf S = "B") ∧
      (25 ≤ S → S < 32 → gradeOf S = "C") ∧ (S < 25 → gradeOf S = "D")) ∧
  gradeOf 44 = "A" ∧ gradeOf 35 = "B" ∧ gradeOf 27 = "C" ∧ gradeOf 10 = "D"

/-- Claim C1: when `nextQuestion` yields no unanswered question, the session
is finished with score equal to the sum over recorded multiple-choice answers
of `chosen index + 1` (free-text answers contribute nothing), the grade comes
from the fixed 40/32/25 thresholds (44, 35, 27, 10 map to A, B, C, D), and
the displayed maximum is `totalQuestions * 5`. -/
theorem finish_scoring_and_grades (st : ScreeningState) (tgId sid : Nat)
    (h : nextQuestion st sid = none) : FinishScoringProp st tgId sid := by
  unfold FinishScoringProp
  rw [h]
  exact ⟨rfl, sessionScore_eq_mc_sum st.answers sid,
    fun row hr => sessionScore_skips_freeText st.answers sid row hr,
    askQuestion_finish_sessions st tgId sid,
    gradeOf_thresholds,
    by decide, by decide, by decide, by decide⟩

/-- A concrete fully-answered session for the C1 witness: one five-option
question, answered with option index 2. -/
def exStDone : ScreeningState :=
  ⟨[⟨10, some [65, 49, 50, 51, 52, 53, 54], "pending"⟩],
    [⟨1, "q1", QType.mcq, ["o1", "o2", "o3", "o4", "o5"], none⟩],
    [⟨1, 10, false, 0, none⟩],
    [⟨1, 1, none, some 2⟩],
    [], 2⟩

/-- Witness for C1: on the concrete finished session the hypothesis holds and
the finish reply carries score 3, maximum 5 and grade D. -/
theorem finish_scoring_and_grades_witness :
    nextQuestion exStDone 1 = none ∧ FinishScoringProp exStDone 10 1 :=
  ⟨by decide, finish_scoring_and_grades exStDone 10 1 (by decide)⟩

/-! ## Claim C4 -/

theorem mem_insertById (q : Question) (l : List Question) (p : Question) :
    p ∈ insertById q l ↔ p = q ∨ p ∈ l := by
  induction l with
  | nil => simp [insertById]
  | cons a t ih =>
    simp only [insertById]
    split
    · simp
    · simp only [List.mem_cons, ih]
      tauto

theorem pairwise_insertById (q : Question) (l : List Question)
    (hl : l.Pairwise (fun a b => a.id ≤ b.id)) :
    (insertById q l).Pairwise (fun a b => a.id ≤ b.id) := by
  induction l with
  | nil => simp [insertById]
  | cons a t ih =>
    rcases List.pairwise_cons.1 hl with ⟨ha, ht⟩
    simp only [insertById]
    split
    · rename_i hle
      refine List.pairwise_cons.2 ⟨?_, hl⟩
      intro b hb
      rcases List.mem_cons.1 hb with rfl | hbt
      · exact hle
      · exact le_trans hle (ha b hbt)
    · rename_i hgt
      refine List.pairwise_cons.2 ⟨?_, ih ht⟩
      intro b hb
      rcases (mem_insertById q t b).1 hb with rfl | hbt
      · omega
      · exact ha b hbt

theorem mem_sortById (l : List Question) (p : Question) : p ∈ sortById l ↔ p ∈ l := by
  induction l with
  | nil => simp [sortById]
  | cons a t ih => simp [sortById, mem_insertById, ih]

theorem sortById_pairwise (l : List Question) :
    (sortById l).Pairwise (fun a b => a.id ≤ b.id) := by
  induction l with
  | nil => simp [sortById]
  | cons a t ih => exact pairwise_insertById a (sortById t) ih

theorem find?_min_of_pairwise (p : Question → Bool) (l : List Question) (x : Question)
    (hl : l.Pairwise (fun a b => a.id ≤ b.id)) (hx : l.find? p = some x) :
    ∀ y ∈ l, p y = true → x.id ≤ y.id := by
  induction l with
  | nil => simp at hx
  | cons a t ih =>
    rcases List.pairwise_cons.1 hl with ⟨ha, ht⟩
    by_cases hpa : p a = true
    · rw [List.find?_cons_of_pos _ hpa] at hx
      cases hx
      intro y hy hpy
      rcases List.mem_cons.1 hy with rfl | hyt
      · exact le_refl _
      · exact ha y hyt
    · rw [List.find?_cons_of_neg _ (by simpa using hpa)] at hx
      intro y hy hpy
      rcases List.mem_cons.1 hy with rfl | hyt
      · exact absurd hpy hpa
      · exact ih ht hx y hyt hpy

theorem mem_answeredIds (answers : List AnswerRow) (sid : Nat) (a : AnswerRow)
    (ha : a ∈ answers) (hsid : a.session_id = sid) :
    a.question_id ∈ answeredIds answers sid := by
  unfold answeredIds
  refine List.mem_map.2 ⟨a, ?_, rfl⟩
  refine List.mem_filter.2 ⟨ha, ?_⟩
  simp [hsid]

/-- The conjunction claim C4 asserts of `nextQuestion`: a returned question
is a catalog question, is unanswered, has the least id among unanswered
catalog questions (so the selection is deterministic in ascending id order),
and differs from every question already answered in the session; a `none`
result is returned exactly when every catalog question is answered. -/
def NextQuestionProp (st : ScreeningState) (sid : Nat) : Prop :=
  (∀ q, nextQuestion st sid = some q →
      q ∈ st.questions ∧
      (answeredIds st.answers sid).contains q.id = false ∧
      (∀ p ∈ st.questions, (answeredIds st.answers sid).contains p.id = false → q.id ≤ p.id) ∧
      (∀ a ∈ st.answers, a.session_id = sid → q.id ≠ a.question_id)) ∧
  (nextQuestion st sid = none ↔
      ∀ q ∈ st.questions, (answeredIds st.answers sid).contains q.id = true)

/-- Claim C4: `nextQuestion` deterministically returns the first catalog
question in ascending identifier order not yet answered in the session, or
`none` when all are answered; hence it never returns a question identifier
already answered in the session. -/
theorem nextQuestion_first_unanswered (st : ScreeningState) (sid : Nat) :
    NextQuestionProp st sid := by
  unfold NextQuestionProp nextQuestion
  constructor
  · intro q hq
    have hqmem : q ∈ sortById st.questions := List.mem_of_find?_eq_some hq
    have hqp := List.find?_some hq
    have hqc : (answeredIds st.answers sid).contains q.id = false := by
      simpa using hqp
    refine ⟨(mem_sortById st.questions q).1 hqmem, hqc, ?_, ?_⟩
    · intro p hp hpc
      refine find?_min_of_pairwise _ _ q (sortById_pairwise st.questions) hq p
        ((mem_sortById st.questions p).2 hp) ?_
      simp only [Bool.not_eq_true']
      exact hpc
    · intro a ha hsid heq
      have hmem : a.question_id ∈ answeredIds st.answers sid := mem_answeredIds _ _ a ha hsid
      have hnot : q.id ∉ answeredIds st.answers sid := by simpa using hqc
      rw [heq] at hnot
      exact hnot hmem
  · rw [List.find?_eq_none]
    constructor
    · intro h q hq
      have := h q ((mem_sortById st.questions q).2 hq)
      simpa using this
    · intro h q hq
      have := h q ((mem_sortById st.questions q).1 hq)
      simpa using this

/-- A concrete state for the C4 witness: catalog stored out of order
(ids 2 then 1), question 1 already answered in session 1. -/
def exStHalf : ScreeningState :=
  ⟨[⟨10, none, "pending"⟩],
    [⟨2, "q2", QType.mcq, ["o1", "o2"], none⟩, ⟨1, "q1", QType.mcq, ["o1", "o2"], none⟩],
    [⟨1, 10, false, 0, none⟩],
    [⟨1, 1, none, some 0⟩],
    [], 2⟩

/-- Witness for C4: on the concrete half-answered session, `nextQuestion`
returns question 2 and the theorem yields that it is a catalog question that
is not yet answered. -/
theorem nextQuestion_first_unanswered_witness :
    nextQuestion exStHalf 1 = some ⟨2, "q2", QType.mcq, ["o1", "o2"], none⟩ ∧
    (answeredIds exStHalf.answers 1).contains 2 = false :=
  ⟨by decide,
    ((nextQuestion_first_unanswered exStHalf 1).1 ⟨2, "q2", QType.mcq, ["o1", "o2"], none⟩
      (by decide)).2.1⟩

/-! ## Claim C2 -/

/-- A concrete fresh session for claim C2: member 10 with one five-option
multiple-choice question and no answers yet. -/
def exStFresh : ScreeningState :=
  ⟨[⟨10, none, "pending"⟩],
    [⟨1, "q1", QType.mcq, ["o1", "o2", "o3", "o4", "o5"], none⟩],
    [⟨1, 10, false, 0, none⟩],
    [], [], 2⟩

/-- Claim C2 (failing input): the same multiple-choice callback
`ans:1:2` delivered twice for session 1. Because `screening_answers` has no
unique constraint on `(session_id, question_id)`, `ON CONFLICT DO NOTHING`
never fires: the second submission inserts a second row for the same
`(session, question)` pair, and the recomputed score counts the answer twice
(6 instead of 3). -/
theorem duplicate_answer_inserted_twice :
    ((handleCallback (handleCallback exStFresh 10 1 2).1 10 1 2).1.answers.filter
        (fun a => a.session_id == 1 && a.question_id == 1)).length = 2 ∧
    sessionScore (handleCallback exStFresh 10 1 2).1.answers 1 = 3 ∧
    sessionScore (handleCallback (handleCallback exStFresh 10 1 2).1 10 1 2).1.answers 1 = 6 := by
  refine ⟨by decide, by decide, by decide⟩

/-! ## Claim C5 -/

/-- A concrete in-progress session for claim C5: member 10 holds code
`A123456`, the single catalog question is answered with chosen index 43, so
the finish computes score 44 and grade `A`. -/
def exStToFinish : ScreeningState :=
  ⟨[⟨10, some [65, 49, 50, 51, 52, 53, 54], "pending"⟩],
    [⟨1, "q1", QType.mcq, ["o1", "o2", "o3", "o4", "o5"], none⟩],
    [⟨1, 10, false, 0, none⟩],
    [⟨1, 1, none, some 43⟩],
    [], 2⟩

/-- Claim C5 (counterexample): finishing mirrors grade `A` onto the member's
screening status, but a subsequent start-screening request is not terminated:
because the gate only rejects the statuses `passed` and `failed` and the
finish writes a grade letter, the handler proceeds to the code prompt, and
submitting the member's code re-enters the screening flow (re-running the
finish and replying with the result again). -/
theorem finished_member_can_restart_screening :
    nextQuestion exStToFinish 1 = none ∧
    (askQuestion exStToFinish 10 1 none).1.members.map (fun m => m.screening_status) = ["A"] ∧
    startScreeningWithCode (askQuestion exStToFinish 10 1 none).1 10
      = ((askQuestion exStToFinish 10 1 none).1, Reply.askForCode) ∧
    Reply.askForCode ≠ Reply.alreadyPassed ∧
    Reply.askForCode ≠ Reply.alreadyFailed ∧
    (verifyCodeAndBegin (askQuestion exStToFinish 10 1 none).1 10
        [65, 49, 50, 51, 52, 53, 54]).2 = Reply.resultMsg 44 5 "A" := by
  refine ⟨by decide, by decide, by decide, by decide, by decide, by decide⟩

/-- The write half of the amended claim C5: finishing a session writes the
score and grade to the session row and mirrors the grade onto the member's
screening status field. -/
def FinishMirrorsGradeProp (st : ScreeningState) (tgId sid : Nat) : Prop :=
  (∀ s ∈ (askQuestion st tgId sid none).1.sessions, s.id = sid →
      s.finished = true ∧ s.score = sessionScore st.answers sid ∧
      s.result = some (gradeOf (sessionScore st.answers sid))) ∧
  (∀ m ∈ (askQuestion st tgId sid none).1.members, m.tg_id = tgId →
      m.screening_status = gradeOf (sessionScore st.answers sid))

/-- Claim C5 (amended): finishing writes the score and grade to the session
row and mirrors the grade onto the member's screening status; but the grade
ladder only produces the letters A-D, never `passed` or `failed`, and the
start-screening gate only rejects `passed` and `failed` — so for any member
whose status is a grade letter, a subsequent start-screening request proceeds
to the code prompt instead of terminating. -/
theorem finish_writes_and_gate_only_passed_failed :
    (∀ st : ScreeningState, ∀ tgId sid : Nat, FinishMirrorsGradeProp st tgId sid) ∧
    (∀ S : Int, gradeOf S ≠ "passed" ∧ gradeOf S ≠ "failed") ∧
    (∀ st : ScreeningState, ∀ tgId : Nat, ∀ m : MemberRow,
      st.members.find? (fun x => x.tg_id == tgId) = some m →
      m.screening_status ≠ "passed" → m.screening_status ≠ "failed" →
      startScreeningWithCode st tgId = (st, Reply.askForCode)) := by
  refine ⟨?_, ?_, ?_⟩
  · intro st tgId sid
    exact ⟨askQuestion_finish_sessions st tgId sid, askQuestion_finish_members st tgId sid⟩
  · intro S
    unfold gradeOf
    split_ifs <;> exact ⟨by decide, by decide⟩
  · intro st tgId m hfind hp hf
    unfold startScreeningWithCode
    rw [hfind]
    simp [hp, hf]

/-- Witness for the amended C5 theorem: a member whose status is the grade
letter `A` passes the ineffective gate and is prompted for their code. -/
theorem finish_writes_gate_witness :
    startScreeningWithCode ⟨[⟨10, none, "A"⟩], [], [], [], [], 1⟩ 10
      = (⟨[⟨10, none, "A"⟩], [], [], [], [], 1⟩, Reply.askForCode) :=
  finish_writes_and_gate_only_passed_failed.2.2 ⟨[⟨10, none, "A"⟩], [], [], [], [], 1⟩ 10
    ⟨10, none, "A"⟩ (by decide) (by decide) (by decide)

/-! ## Claim C8: the invitation-code variant (third `part_000` program)

The `/register CODE` handler runs one transaction: re-check the redeemer is
not already a member, `SELECT ... FOR UPDATE` the code row (which serializes
concurrent redemptions of the same code), verify `active`, expiry, and
remaining capacity, then insert the membership row and increment
`used_count`, or `ROLLBACK` with a specific reply. The row lock makes the
transaction atomic, so the handler is modeled as one sequential step. -/

namespace V3

/-- A row of `membership_codes`. -/
structure CodeRow where
  code : String
  allowed_uses : Int
  used_count : Int
  expires_at : Option Nat
  active : Bool
deriving DecidableEq, Repr

/-- A row of `members` (invitation-code variant: with `code_used`). -/
structure MemberRow where
  tg_id : Nat
  code_used : Option String
deriving DecidableEq, Repr

/-- The two tables of the invitation-code variant. -/
structure St where
  codes : List CodeRow
  members : List MemberRow
deriving DecidableEq, Repr

/-- The reply sent by the `/register` handler. -/
inductive RegReply
  | badFormat
  | alreadyMember
  | invalidCode
  | inactiveCode
  | expiredCode
  | capacityFull
  | success
deriving DecidableEq, Repr

/-- Embeds `row.expires_at && new Date(row.expires_at) < new Date()` with the
current time modeled as a natural number. -/
def isExpired (row : CodeRow) (now : Nat) : Bool :=
  match row.expires_at with
  | some t => decide (t < now)
  | none => false

/-- The `/register CODE` transaction: each guard rolls back with its specific
reply and leaves both tables untouched; on success exactly one membership row
is inserted and the code's `used_count` is incremented by one. -/
def registerCmd (st : St) (now tgId : Nat) (code? : Option String) : St × RegReply :=
  match code? with
  | none => (st, RegReply.badFormat)
  | some code =>
    if st.members.any (fun m => m.tg_id == tgId) then (st, RegReply.alreadyMember)
    else
      match st.codes.find? (fun r => r.code == code) with
      | none => (st, RegReply.invalidCode)
      | some row =>
        if !row.active then (st, RegReply.inactiveCode)
        else if isExpired row now then (st, RegReply.expiredCode)
        else if row.allowed_uses ≤ row.used_count then (st, RegReply.capacityFull)
        else
          ({ codes := st.codes.map (fun r =>
                if r.code == code then { r with used_count := r.used_count + 1 } else r),
             members := st.members ++ [⟨tgId, some code⟩] },
            RegReply.success)

/-- Number of membership rows that redeemed the given code. -/
def countUsing (members : List MemberRow) (code : String) : Nat :=
  (members.filter (fun m => m.code_used == some code)).length

/-- The `used_count` currently stored for a code, when the code exists. -/
def usedOf (st : St) (code : String) : Option Int :=
  (st.codes.find? (fun r => r.code == code)).map (fun r => r.used_count)

/-- Well-formedness maintained by the transaction: code values are primary
keys (pairwise distinct), no code is over capacity, and each code's
`used_count` dominates the number of members who redeemed it. -/
def Inv (st : St) : Prop :=
  st.codes.Pairwise (fun a b => a.code ≠ b.code) ∧
  ∀ r ∈ st.codes, r.used_count ≤ r.allowed_uses ∧
    (countUsing st.members r.code : Int) ≤ r.used_count

/-- A sequence of redemption requests `(now, tgId, code?)`, handled one
transaction at a time (the row lock serializes them). -/
def runRegs (st : St) : List (Nat × Nat × Option String) → St
  | [] => st
  | (now, tgId, code?) :: rest => runRegs (registerCmd st now tgId code?).1 rest

theorem registerCmd_spec (st : St) (now tgId : Nat) (code? : Option String) :
    ((registerCmd st now tgId code?).2 ≠ RegReply.success ∧
      (registerCmd st now tgId code?).1 = st) ∨
    (∃ code row, code? = some code ∧
      st.members.any (fun m => m.tg_id == tgId) = false ∧
      st.codes.find? (fun r => r.code == code) = some row ∧
      row.active = true ∧ isExpired row now = false ∧
      row.used_count < row.allowed_uses ∧
      (registerCmd st now tgId code?).2 = RegReply.success ∧
      (registerCmd st now tgId code?).1
        = ⟨st.codes.map (fun r =>
              if r.code == code then { r with used_count := r.used_count + 1 } else r),
            st.members ++ [⟨tgId, some code⟩]⟩) := by
  unfold registerCmd
  cases code? with
  | none => left; exact ⟨by simp, rfl⟩
  | some code =>
    by_cases hm : st.members.any (fun m => m.tg_id == tgId) = true
    · left
      simp [hm]
    · rcases hf : st.codes.find? (fun r => r.code == code) with _ | row
      · left
        simp [hm, hf]
      · by_cases hact : row.active = true
        · by_cases hexp : isExpired row now = true
          · left
            simp [hm, hf, hact, hexp]
          · by_cases hcap : row.allowed_uses ≤ row.used_count
            · left
              simp [hm, hf, hact, hexp, hcap]
            · right
              refine ⟨code, row, rfl, by simpa using hm, hf, hact,
                by simpa using hexp, by omega, ?_, ?_⟩
              · simp [hm, hf, hact, hexp, hcap]
              · simp [hm, hf, hact, hexp, hcap]
        · left
          simp [hm, hf, hact]

theorem countUsing_append (members : List MemberRow) (tgId : Nat) (code c : String) :
    countUsing (members ++ [⟨tgId, some code⟩]) c
      = countUsing members c + (if c = code then 1 else 0) := by
  unfold countUsing
  rw [List.filter_append]
  by_cases h : c = code
  · subst h
    simp
  · have hne : ((⟨tgId, some code⟩ : MemberRow).code_used == some c) = false := by
      rw [beq_eq_false_iff_ne]
      simp only [ne_eq, Option.some.injEq]
      exact fun hcc => h hcc.symm
    simp [List.filter_cons, hne, h]

theorem find?_unique_key (l : List CodeRow) (code : String) (row r0 : CodeRow)
    (hpw : l.Pairwise (fun a b => a.code ≠ b.code))
    (hf : l.find? (fun r => r.code == code) = some row)
    (hr0 : r0 ∈ l) (h0 : r0.code = code) : r0 = row := by
  induction l with
  | nil => simp at hr0
  | cons a t ih =>
    rcases List.pairwise_cons.1 hpw with ⟨ha, ht⟩
    rcases List.mem_cons.1 hr0 with rfl | hr0t
    · rw [List.find?_cons_of_pos _ (by simp [h0])] at hf
      cases hf
      rfl
    · by_cases hpa : a.code = code
      · exact absurd (hpa.trans h0.symm) (ha r0 hr0t)
      · rw [List.find?_cons_of_neg _ (by simp [hpa])] at hf
        exact ih ht hf hr0t

theorem find?_update_used (l : List CodeRow) (code : String) :
    (l.map (fun r =>
        if r.code == code then { r with used_count := r.used_count + 1 } else r)).find?
          (fun r => r.code == code)
      = (l.find? (fun r => r.code == code)).map
          (fun r => if r.code == code then { r with used_count := r.used_count + 1 } else r) := by
  induction l with
  | nil => rfl
  | cons a t ih =>
    by_cases ha : a.code = code
    · rw [List.map_cons, List.find?_cons_of_pos _ (by simp [ha]),
        List.find?_cons_of_pos _ (by simp [ha])]
      rfl
    · rw [List.map_cons, List.find?_cons_of_neg _ (by simp [ha]),
        List.find?_cons_of_neg _ (by simp [ha])]
      exact ih

theorem registerCmd_preserves_inv (st : St) (now tgId : Nat) (code? : Option String)
    (hinv : Inv st) : Inv (registerCmd st now tgId code?).1 := by
  rcases registerCmd_spec st now tgId code? with ⟨_, heq⟩ |
    ⟨code, row, hc, hm, hf, hact, hexp, hcap, hs, heq⟩
  · rw [heq]
    exact hinv
  · rw [heq]
    obtain ⟨hpw, hbound⟩ := hinv
    constructor
    · refine List.Pairwise.map _ ?_ hpw
      intro a b hab
      by_cases ha : a.code = code <;> by_cases hb : b.code = code <;>
        simpa [ha, hb] using hab
    · intro r hr
      simp only [List.mem_map] at hr
      obtain ⟨r0, hr0, rfl⟩ := hr
      obtain ⟨hb1, hb2⟩ := hbound r0 hr0
      by_cases h0 : r0.code = code
      · have hrow : r0 = row := find?_unique_key st.codes code row r0 hpw hf hr0 h0
        rw [← hrow] at hcap
        rw [h0] at hb2
        simp only [h0, beq_self_eq_true, if_true]
        constructor
        · show r0.used_count + 1 ≤ r0.allowed_uses
          omega
        · show (countUsing (st.members ++ [⟨tgId, some code⟩]) code : Int) ≤ r0.used_count + 1
          rw [countUsing_append, if_pos rfl]
          push_cast
          omega
      · simp only [beq_iff_eq, h0, if_false]
        refine ⟨hb1, ?_⟩
        rw [countUsing_append]
        simp only [h0, if_false]
        simpa using hb2

theorem runRegs_preserves_inv (reqs : List (Nat × Nat × Option String)) (st : St)
    (hinv : Inv st) : Inv (runRegs st reqs) := by
  induction reqs generalizing st with
  | nil => exact hinv
  | cons e rest ih =>
    obtain ⟨now, tgId, code?⟩ := e
    exact ih _ (registerCmd_preserves_inv st now tgId code? hinv)

theorem registerCmd_success_effects (st : St) (now tgId : Nat) (code : String)
    (hs : (registerCmd st now tgId (some code)).2 = RegReply.success) :
    (registerCmd st now tgId (some code)).1.members = st.members ++ [⟨tgId, some code⟩] ∧
    countUsing (registerCmd st now tgId (some code)).1.members code
      = countUsing st.members code + 1 ∧
    usedOf (registerCmd st now tgId (some code)).1 code
      = (usedOf st code).map (fun u => u + 1) := by
  rcases registerCmd_spec st now tgId (some code) with ⟨hns, _⟩ |
    ⟨code', row, hc, hm, hf, hact, hexp, hcap, _, heq⟩
  · exact absurd hs hns
  · cases hc
    rw [heq]
    have hrowcode := List.find?_some hf
    refine ⟨rfl, ?_, ?_⟩
    · rw [countUsing_append]
      simp
    · unfold usedOf
      simp only [find?_update_used, hf, Option.map_map, Option.map_some']
      simp [Function.comp, hrowcode]

/-- Claim C8: each redemption of an invitation code is one atomic
transaction: any rejection (already a member, unknown code, inactive code,
expired code, or exhausted capacity) carries its specific reply and leaves
both tables unchanged; a success inserts exactly one membership row and
increments the redeemed code's `used_count` by exactly one; and along any
sequence of redemptions `used_count` never exceeds `allowed_uses`, so a
capacity-1 code admits at most one member. -/
theorem register_redemption_transactional :
    (∀ (st : St) (now tgId : Nat) (code? : Option String),
      (registerCmd st now tgId code?).2 ≠ RegReply.success →
        (registerCmd st now tgId code?).1 = st) ∧
    (∀ (st : St) (now tgId : Nat) (code : String),
      (registerCmd st now tgId (some code)).2 = RegReply.success →
        (registerCmd st now tgId (some code)).1.members = st.members ++ [⟨tgId, some code⟩] ∧
        countUsing (registerCmd st now tgId (some code)).1.members code
          = countUsing st.members code + 1 ∧
        usedOf (registerCmd st now tgId (some code)).1 code
          = (usedOf st code).map (fun u => u + 1)) ∧
    (∀ (st : St) (reqs : List (Nat × Nat × Option String)), Inv st →
      (∀ r ∈ (runRegs st reqs).codes, r.used_count ≤ r.allowed_uses) ∧
      (∀ r ∈ (runRegs st reqs).codes, r.allowed_uses = 1 →
        countUsing (runRegs st reqs).members r.code ≤ 1)) := by
  refine ⟨?_, ?_, ?_⟩
  · intro st now tgId code? hns
    rcases registerCmd_spec st now tgId code? with ⟨_, heq⟩ |
      ⟨_, _, _, _, _, _, _, _, hs, _⟩
    · exact heq
    · exact absurd hs hns
  · intro st now tgId code hs
    exact registerCmd_success_effects st now tgId code hs
  · intro st reqs hinv
    obtain ⟨hpw2, hbound2⟩ := runRegs_preserves_inv reqs st hinv
    refine ⟨fun r hr => (hbound2 r hr).1, ?_⟩
    intro r hr hone
    have h2 := (hbound2 r hr).2
    have h1 := (hbound2 r hr).1
    rw [hone] at h1
    omega

/-- Witness for C8: a concrete capacity-1 code redeemed twice in sequence:
the first redemption succeeds, the second is rejected as exhausted, and the
theorem bounds the number of members using the code by one. -/
theorem register_redemption_transactional_witness :
    (registerCmd ⟨[⟨"AB", 1, 0, none, true⟩], []⟩ 0 1 (some "AB")).2 = RegReply.success ∧
    (registerCmd (registerCmd ⟨[⟨"AB", 1, 0, none, true⟩], []⟩ 0 1 (some "AB")).1
        0 2 (some "AB")).2 = RegReply.capacityFull ∧
    Inv ⟨[⟨"AB", 1, 0, none, true⟩], []⟩ ∧
    (∀ r ∈ (runRegs ⟨[⟨"AB", 1, 0, none, true⟩], []⟩
        [(0, 1, some "AB"), (0, 2, some "AB")]).codes,
      r.allowed_uses = 1 →
      countUsing (runRegs ⟨[⟨"AB", 1, 0, none, true⟩], []⟩
          [(0, 1, some "AB"), (0, 2, some "AB")]).members r.code ≤ 1) := by
  have hinv : Inv ⟨[⟨"AB", 1, 0, none, true⟩], []⟩ := by
    constructor
    · simp
    · intro r hr
      simp only [List.mem_singleton] at hr
      subst hr
      exact ⟨by decide, by decide⟩
  exact ⟨by decide, by decide, hinv,
    (register_redemption_transactional.2.2 ⟨[⟨"AB", 1, 0, none, true⟩], []⟩
      [(0, 1, some "AB"), (0, 2, some "AB")] hinv).2⟩

end V3

end MembershipBot
